import Mathlib

/-
Verification of the swarm package of go-hare/langchaingo_swarm.

The Go sources under `swarm/` (swarm.go, handoff.go, streaming.go) are
shallowly embedded below.  Go strings are modelled as lists of characters
(`GoStr`), Go's `(T, error)` return pairs as `T × Option GoStr`, dynamic
(`any`) values as small inductive types covering exactly the cases the
swarm code inspects, and the two external langgraphgo graph builders as
records accumulating the nodes, plain edges and conditional edges the
swarm code registers on them.
-/

namespace LangSwarm

/-- Go strings, modelled as their character sequences. -/
abbrev GoStr := List Char

/-- The character list of a Lean string literal (used to write Go string
literals from the source). -/
def strL (s : String) : GoStr := s.data

/-- The apostrophe character (U+0027), used by the default handoff tool
description `Ask agent '<name>' for help`. -/
def quoteCh : Char := Char.ofNat 39

/-- Model of `unicode.IsSpace` from the Go standard library, used by
`strings.TrimSpace`: the Unicode White_Space code points. -/
def isSpace (c : Char) : Bool :=
  decide (c.toNat = 9 ∨ c.toNat = 10 ∨ c.toNat = 11 ∨ c.toNat = 12 ∨ c.toNat = 13 ∨
    c.toNat = 32 ∨ c.toNat = 133 ∨ c.toNat = 160 ∨ c.toNat = 5760 ∨
    (8192 ≤ c.toNat ∧ c.toNat ≤ 8202) ∨ c.toNat = 8232 ∨ c.toNat = 8233 ∨
    c.toNat = 8239 ∨ c.toNat = 8287 ∨ c.toNat = 12288)

/-- The character class of Go's regexp `\s` (RE2): tab, newline, form
feed, carriage return and space.  This is the class matched by the
`whitespaceRe` regexp of handoff.go. -/
def isWsRe (c : Char) : Bool :=
  decide (c.toNat = 9 ∨ c.toNat = 10 ∨ c.toNat = 12 ∨ c.toNat = 13 ∨ c.toNat = 32)

/-- Model of `strings.TrimSpace`: drop Unicode white space from both ends. -/
def trimSpace (l : GoStr) : GoStr :=
  ((l.dropWhile isSpace).reverse.dropWhile isSpace).reverse

/-- Helper for `whitespaceRe.ReplaceAllString(s, "_")`: walks the string
replacing each maximal run of `\s` characters by a single underscore.
The boolean flag records whether we are inside a run already matched. -/
def collapseWsAux : Bool → GoStr → GoStr
  | _, [] => []
  | inWs, a :: t =>
    if isWsRe a then
      if inWs then collapseWsAux true t else '_' :: collapseWsAux true t
    else
      a :: collapseWsAux false t

/-- Model of `whitespaceRe.ReplaceAllString(s, "_")` from handoff.go: every maximal
run of `\s+` is replaced by one underscore. -/
def collapseWs (l : GoStr) : GoStr := collapseWsAux false l

/-- Model of `normalizeAgentName` from handoff.go: `strings.TrimSpace`, then
`whitespaceRe.ReplaceAllString(_, "_")`, then `strings.ToLower`
(`Char.toLower` is the per-character lowercase map on the basic latin
range, matching the behaviour of the Go library on ASCII input). -/
def normalizeAgentName (agentName : GoStr) : GoStr :=
  ((trimSpace agentName) |> collapseWs).map Char.toLower

/-- Model of `llms.MessageContent` as the swarm code builds it via
`llms.TextParts(role, text)`: a role together with the text content. -/
structure MessageContent where
  Role : GoStr
  Content : GoStr
deriving DecidableEq

/-- Model of `llms.TextParts(role, text)`. -/
def TextParts (role text : GoStr) : MessageContent :=
  { Role := role, Content := text }

/-- Model of `SwarmState` from swarm.go: the message history and the name of the
currently active agent. -/
structure SwarmState where
  Messages : List MessageContent
  ActiveAgent : GoStr
deriving DecidableEq

/-- A dynamically typed Go value (`any`) as returned by a runnable's
`Invoke`; the swarm code only ever asks whether it is a `SwarmState`. -/
inductive AnyVal where
  | state (s : SwarmState)
  | other
deriving DecidableEq

/-- The dynamic `Runnable any` field of an `Agent`.  The node functions
type-assert it against `interface { Invoke(ctx, SwarmState) (any, error) }`:
either the assertion succeeds and invoking yields a value and an optional
error, or it fails. -/
inductive Runnable where
  | invoker (f : SwarmState → AnyVal × Option GoStr)
  | notInvoker

/-- Model of `Agent` from swarm.go. -/
structure Agent where
  Name : GoStr
  Runnable : Runnable
  Destinations : List GoStr

/-- Model of `SwarmConfig` from swarm.go (the opaque `ContextSchema` field is never
read by the swarm code and is omitted). -/
structure SwarmConfig where
  Agents : List Agent
  DefaultActiveAgent : GoStr

/-- Errors returned by the swarm constructors (`fmt.Errorf` values,
identified by which format string produced them). -/
inductive SwarmError where
  | agentsListEmpty
  | defaultNotFoundAgentNames (name : GoStr) (names : List GoStr)
  | defaultNotFoundRoutes (name : GoStr) (names : List GoStr)
deriving DecidableEq

/-- The `__HANDOFF__` marker string from handoff.go. -/
def handoffMarker : GoStr := strL "__HANDOFF__"

/-- Model of `handoffTool` from handoff.go. -/
structure HandoffTool where
  name : GoStr
  description : GoStr
  agentName : GoStr
deriving DecidableEq

/-- Model of `(*handoffTool).Name()`. -/
def HandoffTool.Name (t : HandoffTool) : GoStr := t.name

/-- Model of `(*handoffTool).Description()`. -/
def HandoffTool.Description (t : HandoffTool) : GoStr := t.description

/-- Model of `(*handoffTool).Call(ctx, input)`: always returns the marker followed
by the target agent name, with a nil error. -/
def HandoffTool.Call (t : HandoffTool) (_input : GoStr) : GoStr × Option GoStr :=
  (handoffMarker ++ t.agentName, none)

/-- Model of `HandoffToolConfig` from handoff.go. -/
structure HandoffToolConfig where
  AgentName : GoStr
  Name : GoStr
  Description : GoStr

/-- Model of `CreateHandoffTool` from handoff.go: defaults the tool name to
`transfer_to_<normalized agent name>` and the description to
`Ask agent '<agent name>' for help` when the config leaves them empty. -/
def CreateHandoffTool (config : HandoffToolConfig) : HandoffTool :=
  let name := if config.Name = [] then
      strL "transfer_to_" ++ normalizeAgentName config.AgentName
    else config.Name
  let description := if config.Description = [] then
      strL "Ask agent " ++ [quoteCh] ++ config.AgentName ++ [quoteCh] ++ strL " for help"
    else config.Description
  { name := name, description := description, agentName := config.AgentName }

/-- Model of `ParseHandoffResult` from handoff.go: strip the marker if present. -/
def ParseHandoffResult (result : GoStr) : GoStr × Bool :=
  if handoffMarker.isPrefixOf result then
    (result.drop handoffMarker.length, true)
  else
    ([], false)

/-- Model of `isHandoffResponse` from handoff.go (same test, fields swapped). -/
def isHandoffResponse (response : GoStr) : Bool × GoStr :=
  if handoffMarker.isPrefixOf response then
    (true, response.drop handoffMarker.length)
  else
    (false, [])

/-- The synthetic tool message appended on a handoff:
`llms.TextParts("tool", "Successfully transferred to <agent>")`. -/
def transferMessage (agentName : GoStr) : MessageContent :=
  TextParts (strL "tool") (strL "Successfully transferred to " ++ agentName)

/-- Model of `processHandoff` from handoff.go: when the tool response carries the
handoff marker, append the transfer message and set the active agent. -/
def processHandoff (state : SwarmState) (toolResponse : GoStr) : SwarmState × Bool :=
  match isHandoffResponse toolResponse with
  | (true, agentName) =>
    ({ Messages := state.Messages ++ [transferMessage agentName],
       ActiveAgent := agentName }, true)
  | (false, _) => (state, false)

/-- Model of `graph.Command` from langgraphgo, as far as `CreateHandoffCommand`
fills it: a goto target plus the state-update payload. -/
structure Command where
  Goto : GoStr
  UpdateMessages : List MessageContent
  UpdateActiveAgent : GoStr
deriving DecidableEq

/-- Model of `CreateHandoffCommand` from handoff.go (the `toolCallID` argument is
accepted but never used by the body). -/
def CreateHandoffCommand (targetAgent _toolCallID : GoStr) : Command :=
  { Goto := targetAgent,
    UpdateMessages := [transferMessage targetAgent],
    UpdateActiveAgent := targetAgent }

/-- The node function of `CreateSwarm` in swarm.go: type-assert the
runnable against the `Invoke` interface; on an invocation error return
the input state and that error; on a `SwarmState` result return it; in
every other case fall through to returning the input state and nil. -/
def nodeFunc (agent : Agent) (state : SwarmState) : SwarmState × Option GoStr :=
  match agent.Runnable with
  | .invoker f =>
    match f state with
    | (_, some err) => (state, some err)
    | (.state resultState, none) => (resultState, none)
    | (.other, none) => (state, none)
  | .notInvoker => (state, none)

/-- The node function of `CreateStreamingSwarm` in streaming.go.  Its
control flow is identical to `nodeFunc`; the `fmt.Printf` debug lines it
additionally executes have no effect on the returned value. -/
def streamingNodeFunc (agent : Agent) (state : SwarmState) : SwarmState × Option GoStr :=
  match agent.Runnable with
  | .invoker f =>
    match f state with
    | (_, some err) => (state, some err)
    | (.state resultState, none) => (resultState, none)
    | (.other, none) => (state, none)
  | .notInvoker => (state, none)

/-- Model of `graph.StateGraph[SwarmState]` from langgraphgo, recording exactly
what swarm.go registers on it: named nodes, plain edges, and conditional
edge groups (source, routing function, path map as an association list
in insertion order). -/
structure StateGraph where
  nodes : List (GoStr × (SwarmState → SwarmState × Option GoStr))
  edges : List (GoStr × GoStr)
  condEdges : List (GoStr × (SwarmState → GoStr) × List (GoStr × GoStr))

/-- Model of `graph.NewStateGraph[SwarmState]()`. -/
def newStateGraph : StateGraph :=
  { nodes := [], edges := [], condEdges := [] }

/-- The routing closure built inside `addActiveAgentRouter` in swarm.go:
return the state's active agent when non-empty, otherwise the default. -/
def routeFunc (defaultActiveAgent : GoStr) (state : SwarmState) : GoStr :=
  if state.ActiveAgent ≠ [] then state.ActiveAgent else defaultActiveAgent

/-- Model of `addActiveAgentRouter` from swarm.go: validate that the default
active agent is among the agent names, then register the routing
function as a conditional edge group from `__start__` with the path map
sending every agent name to itself. -/
def addActiveAgentRouter (g : StateGraph) (agentNames : List GoStr)
    (defaultActiveAgent : GoStr) : Except SwarmError StateGraph :=
  if agentNames.any (fun name => name == defaultActiveAgent) then
    .ok { g with condEdges := g.condEdges ++
      [(strL "__start__", routeFunc defaultActiveAgent,
        agentNames.map (fun name => (name, name)))] }
  else
    .error (.defaultNotFoundRoutes defaultActiveAgent agentNames)

/-- Model of `AddActiveAgentRouter` from swarm.go (public wrapper). -/
def AddActiveAgentRouter (g : StateGraph) (agentNames : List GoStr)
    (defaultActiveAgent : GoStr) : Except SwarmError StateGraph :=
  addActiveAgentRouter g agentNames defaultActiveAgent

/-- Model of `CreateSwarm` from swarm.go: reject an empty agent list, reject a
default active agent absent from the agent names, then build a state
graph carrying the active-agent router, one node per agent, and one
plain edge from each agent to each of its declared destinations. -/
def CreateSwarm (config : SwarmConfig) : Except SwarmError StateGraph :=
  if config.Agents.length = 0 then
    .error .agentsListEmpty
  else
    let agentNames := config.Agents.map (fun agent => agent.Name)
    if agentNames.any (fun name => name == config.DefaultActiveAgent) then
      match addActiveAgentRouter newStateGraph agentNames config.DefaultActiveAgent with
      | .error e => .error e
      | .ok routed =>
        .ok (config.Agents.foldl (fun acc agent =>
          { acc with
            nodes := acc.nodes ++ [(agent.Name, nodeFunc agent)],
            edges := acc.edges ++
              agent.Destinations.map (fun dest => (agent.Name, dest)) }) routed)
    else
      .error (.defaultNotFoundAgentNames config.DefaultActiveAgent agentNames)

/-- Model of `graph.END` from langgraphgo.  Modelled from the spec: the engine's
terminal sink sentinel; its concrete value lives in the external engine
and none of the verified properties depend on it. -/
def END : GoStr := strL "__end__"

/-- Model of `graph.StreamingStateGraph[SwarmState]` from langgraphgo, recording
what streaming.go registers on it: the entry point, named nodes, per-node
conditional routing functions, and plain edges. -/
structure StreamingStateGraph where
  entry : GoStr
  nodes : List (GoStr × (SwarmState → SwarmState × Option GoStr))
  condEdges : List (GoStr × (SwarmState → GoStr))
  edges : List (GoStr × GoStr)

/-- The conditional routing closure built inside `CreateStreamingSwarm`
for an agent with destinations: when the active agent is non-empty,
differs from this agent's own name and appears in this agent's
destination list, route to it; otherwise route to `END`. -/
def streamingCondFunc (agent : Agent) (state : SwarmState) : GoStr :=
  if state.ActiveAgent ≠ [] ∧ state.ActiveAgent ≠ agent.Name then
    if agent.Destinations.any (fun dest => dest == state.ActiveAgent) then
      state.ActiveAgent
    else END
  else END

/-- Model of `CreateStreamingSwarm` from streaming.go: same validation as
`CreateSwarm`; the entry point is set to the default active agent; each
agent gets a node; each agent with a non-empty destination list gets a
conditional edge with `streamingCondFunc`, and each agent with an empty
destination list gets a plain edge to `END`. -/
def CreateStreamingSwarm (config : SwarmConfig) : Except SwarmError StreamingStateGraph :=
  if config.Agents.length = 0 then
    .error .agentsListEmpty
  else
    let agentNames := config.Agents.map (fun agent => agent.Name)
    if agentNames.any (fun name => name == config.DefaultActiveAgent) then
      .ok
        { entry := config.DefaultActiveAgent
          nodes := config.Agents.map (fun agent => (agent.Name, streamingNodeFunc agent))
          condEdges := config.Agents.filterMap (fun agent =>
            if agent.Destinations.length > 0 then
              some (agent.Name, streamingCondFunc agent)
            else none)
          edges := config.Agents.filterMap (fun agent =>
            if agent.Destinations.length > 0 then none
            else some (agent.Name, END)) }
    else
      .error (.defaultNotFoundAgentNames config.DefaultActiveAgent agentNames)

/-! ### Helper lemmas -/

theorem toNat_ofNat_small (n : Nat) (h : n < 55296) : (Char.ofNat n).toNat = n := by
  rw [Char.ofNat, dif_pos (Or.inl h)]
  simp [Char.ofNatAux, Char.toNat, UInt32.toNat, BitVec.toNat_ofNat]

theorem toLower_toNat (c : Char) :
    (Char.toLower c).toNat =
      if c.toNat ≥ 65 ∧ c.toNat ≤ 90 then c.toNat + 32 else c.toNat := by
  show (if c.toNat ≥ 65 ∧ c.toNat ≤ 90 then Char.ofNat (c.toNat + 32) else c).toNat = _
  split_ifs with h
  · exact toNat_ofNat_small _ (by omega)
  · rfl

theorem toLower_eq_self (c : Char) (h : ¬(c.toNat ≥ 65 ∧ c.toNat ≤ 90)) :
    Char.toLower c = c := by
  show (if c.toNat ≥ 65 ∧ c.toNat ≤ 90 then Char.ofNat (c.toNat + 32) else c) = c
  rw [if_neg h]

theorem toLower_idem (c : Char) :
    Char.toLower (Char.toLower c) = Char.toLower c := by
  by_cases h : c.toNat ≥ 65 ∧ c.toNat ≤ 90
  · apply toLower_eq_self
    rw [toLower_toNat, if_pos h]
    omega
  · simp only [toLower_eq_self c h]

theorem isSpace_toLower (c : Char) : isSpace (Char.toLower c) = isSpace c := by
  by_cases h : c.toNat ≥ 65 ∧ c.toNat ≤ 90
  · have hl : (Char.toLower c).toNat = c.toNat + 32 := by
      rw [toLower_toNat, if_pos h]
    simp only [isSpace, hl]
    rw [decide_eq_false (by omega), decide_eq_false (by omega)]
  · rw [toLower_eq_self c h]

theorem isWsRe_toLower (c : Char) : isWsRe (Char.toLower c) = isWsRe c := by
  by_cases h : c.toNat ≥ 65 ∧ c.toNat ≤ 90
  · have hl : (Char.toLower c).toNat = c.toNat + 32 := by
      rw [toLower_toNat, if_pos h]
    simp only [isWsRe, hl]
    rw [decide_eq_false (by omega), decide_eq_false (by omega)]
  · rw [toLower_eq_self c h]

theorem isSpace_of_isWsRe (c : Char) (h : isWsRe c = true) : isSpace c = true := by
  simp only [isWsRe, decide_eq_true_eq] at h
  simp only [isSpace, decide_eq_true_eq]
  omega

theorem not_isWsRe_of_not_isSpace (c : Char) (h : isSpace c = false) :
    isWsRe c = false := by
  cases hw : isWsRe c with
  | false => rfl
  | true => rw [isSpace_of_isWsRe c hw] at h; exact absurd h (by simp)

theorem head?_dropWhile (p : Char → Bool) (l : GoStr) (c : Char)
    (h : (l.dropWhile p).head? = some c) : p c = false := by
  induction l with
  | nil => simp [List.dropWhile] at h
  | cons a t ih =>
    rw [List.dropWhile_cons] at h
    by_cases hpa : p a = true
    · rw [if_pos hpa] at h
      exact ih h
    · rw [if_neg hpa] at h
      simp only [List.head?_cons, Option.some.injEq] at h
      subst h
      exact Bool.eq_false_iff.mpr hpa

theorem dropWhile_eq_self_of_head (p : Char → Bool) (l : GoStr)
    (h : ∀ c, l.head? = some c → p c = false) : l.dropWhile p = l := by
  cases l with
  | nil => rfl
  | cons a t =>
    rw [List.dropWhile_cons, if_neg]
    rw [h a rfl]
    simp

theorem head?_of_isPrefix (s l : GoStr) (c : Char) (hp : s <+: l)
    (h : s.head? = some c) : l.head? = some c := by
  obtain ⟨t, rfl⟩ := hp
  cases s with
  | nil => simp at h
  | cons a u =>
    simp only [List.head?_cons, Option.some.injEq] at h
    subst h
    rfl

theorem trimSpace_head (l : GoStr) (c : Char)
    (h : (trimSpace l).head? = some c) : isSpace c = false := by
  unfold trimSpace at h
  have hsuf : ((l.dropWhile isSpace).reverse.dropWhile isSpace) <:+
      (l.dropWhile isSpace).reverse := List.dropWhile_suffix isSpace
  have hpre : ((l.dropWhile isSpace).reverse.dropWhile isSpace).reverse <+:
      l.dropWhile isSpace := by
    rw [← List.reverse_suffix]
    simpa using hsuf
  have hhead : (l.dropWhile isSpace).head? = some c :=
    head?_of_isPrefix _ _ c hpre h
  exact head?_dropWhile isSpace l c hhead

theorem trimSpace_getLast (l : GoStr) (c : Char)
    (h : (trimSpace l).getLast? = some c) : isSpace c = false := by
  unfold trimSpace at h
  rw [List.getLast?_reverse] at h
  exact head?_dropWhile isSpace (l.dropWhile isSpace).reverse c h

theorem trimSpace_eq_self (l : GoStr)
    (h1 : ∀ c, l.head? = some c → isSpace c = false)
    (h2 : ∀ c, l.getLast? = some c → isSpace c = false) : trimSpace l = l := by
  unfold trimSpace
  rw [dropWhile_eq_self_of_head isSpace l h1]
  rw [dropWhile_eq_self_of_head isSpace l.reverse (by
    intro c hc
    rw [List.head?_reverse] at hc
    exact h2 c hc)]
  exact List.reverse_reverse l

theorem collapseWsAux_not_ws (l : GoStr) :
    ∀ (b : Bool) (c : Char), c ∈ collapseWsAux b l → isWsRe c = false := by
  induction l with
  | nil => intro b c hc; simp [collapseWsAux] at hc
  | cons a t ih =>
    intro b c hc
    by_cases ha : isWsRe a = true
    · rw [show collapseWsAux b (a :: t) =
          (if b then collapseWsAux true t else '_' :: collapseWsAux true t) by
        simp [collapseWsAux, ha]] at hc
      cases b with
      | true => exact ih true c (by simpa using hc)
      | false =>
        rw [if_neg (by decide : ¬(false = true))] at hc
        rcases List.mem_cons.mp hc with hc | hc
        · subst hc; decide
        · exact ih true c hc
    · rw [show collapseWsAux b (a :: t) = a :: collapseWsAux false t by
        simp [collapseWsAux, ha]] at hc
      rcases List.mem_cons.mp hc with hc | hc
      · subst hc; exact Bool.eq_false_iff.mpr ha
      · exact ih false c hc

theorem collapseWsAux_eq_self (l : GoStr) (h : ∀ c ∈ l, isWsRe c = false) :
    ∀ b : Bool, collapseWsAux b l = l := by
  induction l with
  | nil => intro b; rfl
  | cons a t ih =>
    intro b
    have ha : isWsRe a = false := h a (List.mem_cons_self a t)
    rw [show collapseWsAux b (a :: t) = a :: collapseWsAux false t by
      simp [collapseWsAux, ha]]
    rw [ih (fun c hc => h c (List.mem_cons_of_mem a hc)) false]

theorem collapseWsAux_head (b : Bool) (a : Char) (t : GoStr)
    (h : isWsRe a = false) :
    collapseWsAux b (a :: t) = a :: collapseWsAux false t := by
  simp [collapseWsAux, h]

theorem collapseWsAux_getLast (l : GoStr) :
    ∀ (b : Bool) (c : Char), l.getLast? = some c → isWsRe c = false →
      (collapseWsAux b l).getLast? = some c := by
  induction l with
  | nil => intro b c hc _; simp at hc
  | cons a t ih =>
    intro b c hc hw
    cases t with
    | nil =>
      have hac : a = c := by simpa using hc
      rw [collapseWsAux_head b a [] (hac ▸ hw)]
      simpa [collapseWsAux] using hac
    | cons x xs =>
      rw [List.getLast?_cons_cons] at hc
      by_cases ha : isWsRe a = true
      · rw [show collapseWsAux b (a :: x :: xs) =
            (if b then collapseWsAux true (x :: xs)
             else '_' :: collapseWsAux true (x :: xs)) by
          simp [collapseWsAux, ha]]
        have htail := ih true c hc hw
        cases b with
        | true => simpa using htail
        | false =>
          rw [if_neg (by decide : ¬(false = true))]
          cases hr : collapseWsAux true (x :: xs) with
          | nil => rw [hr] at htail; simp at htail
          | cons r rs => rw [hr] at htail; rw [List.getLast?_cons_cons]; exact htail
      · rw [collapseWsAux_head b a (x :: xs) (Bool.eq_false_iff.mpr ha)]
        have htail := ih false c hc hw
        cases hr : collapseWsAux false (x :: xs) with
        | nil => rw [hr] at htail; simp at htail
        | cons r rs => rw [hr] at htail; rw [List.getLast?_cons_cons]; exact htail

theorem normalize_no_ws (l : GoStr) :
    ∀ c ∈ normalizeAgentName l, isWsRe c = false := by
  intro c hc
  obtain ⟨d, hd, rfl⟩ := List.mem_map.mp hc
  rw [isWsRe_toLower]
  exact collapseWsAux_not_ws (trimSpace l) false d hd

theorem normalize_head (l : GoStr) :
    ∀ c, (normalizeAgentName l).head? = some c → isSpace c = false := by
  intro c hc
  rw [show normalizeAgentName l = (collapseWs (trimSpace l)).map Char.toLower from rfl,
    List.head?_map] at hc
  obtain ⟨d, hd, rfl⟩ := Option.map_eq_some'.mp hc
  rw [isSpace_toLower]
  cases ht : trimSpace l with
  | nil =>
    rw [show collapseWs (trimSpace l) = [] by rw [ht]; rfl] at hd
    simp at hd
  | cons a t =>
    have ha : isSpace a = false := trimSpace_head l a (by rw [ht]; rfl)
    rw [show collapseWs (trimSpace l) = a :: collapseWsAux false t by
      rw [ht]; exact collapseWsAux_head false a t (not_isWsRe_of_not_isSpace a ha)] at hd
    simp only [List.head?_cons, Option.some.injEq] at hd
    subst hd
    exact ha

theorem normalize_getLast (l : GoStr) :
    ∀ c, (normalizeAgentName l).getLast? = some c → isSpace c = false := by
  intro c hc
  rw [show normalizeAgentName l = (collapseWs (trimSpace l)).map Char.toLower from rfl,
    List.getLast?_map] at hc
  obtain ⟨d, hd, rfl⟩ := Option.map_eq_some'.mp hc
  rw [isSpace_toLower]
  cases hE : (trimSpace l).getLast? with
  | none =>
    rw [show collapseWs (trimSpace l) = [] by
      rw [List.getLast?_eq_none_iff.mp hE]; rfl] at hd
    simp at hd
  | some e =>
    have he : isSpace e = false := trimSpace_getLast l e hE
    have hout : (collapseWs (trimSpace l)).getLast? = some e :=
      collapseWsAux_getLast (trimSpace l) false e hE (not_isWsRe_of_not_isSpace e he)
    rw [hout] at hd
    simp only [Option.some.injEq] at hd
    subst hd
    exact he

theorem normalizeAgentName_idem (l : GoStr) :
    normalizeAgentName (normalizeAgentName l) = normalizeAgentName l := by
  set m := normalizeAgentName l with hm
  show (collapseWs (trimSpace m)).map Char.toLower = m
  rw [trimSpace_eq_self m (normalize_head l) (normalize_getLast l)]
  rw [show collapseWs m = m from collapseWsAux_eq_self m (normalize_no_ws l) false]
  rw [hm]
  show ((collapseWs (trimSpace l)).map Char.toLower).map Char.toLower = _
  rw [List.map_map]
  exact List.map_congr_left fun a _ => toLower_idem a

theorem marker_isPrefixOf_append (t : GoStr) :
    handoffMarker.isPrefixOf (handoffMarker ++ t) = true :=
  List.isPrefixOf_iff_prefix.mpr (List.prefix_append handoffMarker t)

theorem drop_marker_append (t : GoStr) :
    (handoffMarker ++ t).drop handoffMarker.length = t :=
  List.drop_left handoffMarker t

/-! ### Claim theorems -/

/-- C1: the routing function installed by `addActiveAgentRouter` (as the
conditional edge group from `__start__`) returns `state.ActiveAgent`
whenever it is non-empty and the configured default active agent whenever
it is empty, independently of the contents of `state.Messages`. -/
theorem claim1_active_agent_router :
    (∀ (g : StateGraph) (agentNames : List GoStr) (d : GoStr) (g' : StateGraph),
        addActiveAgentRouter g agentNames d = .ok g' →
        (strL "__start__", routeFunc d,
          agentNames.map (fun name => (name, name))) ∈ g'.condEdges) ∧
    (∀ (d : GoStr) (state : SwarmState), state.ActiveAgent ≠ [] →
        routeFunc d state = state.ActiveAgent) ∧
    (∀ (d : GoStr) (state : SwarmState), state.ActiveAgent = [] →
        routeFunc d state = d) ∧
    (∀ (d : GoStr) (state : SwarmState) (msgs : List MessageContent),
        routeFunc d { state with Messages := msgs } = routeFunc d state) := by
  refine ⟨?_, ?_, ?_, ?_⟩
  · intro g agentNames d g' h
    unfold addActiveAgentRouter at h
    split_ifs at h with hc
    · simp only [Except.ok.injEq] at h
      subst h
      simp
  · intro d state h
    simp [routeFunc, h]
  · intro d state h
    simp [routeFunc, h]
  · intro d state msgs
    rfl

/-- C1 witness: the router installed for default `Alice` over the single
agent name `Alice`; routing resumes `Bob` on a non-empty active agent and
falls back to `Alice` on an empty one. -/
theorem claim1_active_agent_router_witness :
    (strL "__start__", routeFunc (strL "Alice"),
        [(strL "Alice", strL "Alice")]) ∈
      (StateGraph.mk [] []
        [(strL "__start__", routeFunc (strL "Alice"),
          [(strL "Alice", strL "Alice")])]).condEdges ∧
    routeFunc (strL "Alice") ⟨[], strL "Bob"⟩ = strL "Bob" ∧
    routeFunc (strL "Alice") ⟨[], []⟩ = strL "Alice" ∧
    routeFunc (strL "Alice") ⟨[transferMessage (strL "Bob")], strL "Bob"⟩ =
      routeFunc (strL "Alice") ⟨[], strL "Bob"⟩ :=
  ⟨claim1_active_agent_router.1 newStateGraph [strL "Alice"] (strL "Alice") _ rfl,
   claim1_active_agent_router.2.1 (strL "Alice") ⟨[], strL "Bob"⟩ (by decide),
   claim1_active_agent_router.2.2.1 (strL "Alice") ⟨[], []⟩ rfl,
   claim1_active_agent_router.2.2.2 (strL "Alice") ⟨[], strL "Bob"⟩
     [transferMessage (strL "Bob")]⟩

/-- C2: a handoff tool's `Call` always returns the `__HANDOFF__` marker
followed by the target name with a nil error, independently of the input;
parsing that result recovers the target with `true`; parsing any string
not starting with the marker yields the empty string and `false`. -/
theorem claim2_handoff_roundtrip :
    (∀ (t : HandoffTool) (input : GoStr),
        t.Call input = (handoffMarker ++ t.agentName, none)) ∧
    (∀ (t : HandoffTool) (input : GoStr),
        ParseHandoffResult (t.Call input).1 = (t.agentName, true)) ∧
    (∀ result : GoStr, handoffMarker.isPrefixOf result = false →
        ParseHandoffResult result = ([], false)) := by
  refine ⟨fun t input => rfl, ?_, ?_⟩
  · intro t input
    show ParseHandoffResult (handoffMarker ++ t.agentName) = _
    unfold ParseHandoffResult
    rw [if_pos (marker_isPrefixOf_append t.agentName),
      drop_marker_append t.agentName]
  · intro result h
    unfold ParseHandoffResult
    rw [if_neg (by rw [h]; simp)]

/-- C2 witness: round-trip through a tool targeting `Bob`, plus parsing
an ordinary result that carries no marker. -/
theorem claim2_handoff_roundtrip_witness :
    HandoffTool.Call ⟨strL "transfer_to_bob", strL "desc", strL "Bob"⟩ (strL "x") =
      (handoffMarker ++ strL "Bob", none) ∧
    ParseHandoffResult
      (HandoffTool.Call ⟨strL "transfer_to_bob", strL "desc", strL "Bob"⟩
        (strL "x")).1 = (strL "Bob", true) ∧
    ParseHandoffResult (strL "ordinary tool output") = ([], false) :=
  ⟨claim2_handoff_roundtrip.1 ⟨strL "transfer_to_bob", strL "desc", strL "Bob"⟩ (strL "x"),
   claim2_handoff_roundtrip.2.1 ⟨strL "transfer_to_bob", strL "desc", strL "Bob"⟩ (strL "x"),
   claim2_handoff_roundtrip.2.2 (strL "ordinary tool output") (by decide)⟩

/-- C4: applying `processHandoff` to a marker for target `t` yields the
state whose active agent is `t` and whose messages are the old ones plus
exactly one trailing tool-role message containing `t`, and `true`
(`SwarmState` has no further fields); applying it to a response without
the marker returns the state unchanged and `false`. -/
theorem claim4_process_handoff :
    (∀ (state : SwarmState) (target : GoStr),
        processHandoff state (handoffMarker ++ target) =
          ({ Messages := state.Messages ++ [transferMessage target],
             ActiveAgent := target }, true) ∧
        (transferMessage target).Role = strL "tool" ∧
        target <:+ (transferMessage target).Content) ∧
    (∀ (state : SwarmState) (response : GoStr),
        handoffMarker.isPrefixOf response = false →
        processHandoff state response = (state, false)) := by
  constructor
  · intro state target
    refine ⟨?_, rfl, List.suffix_append _ target⟩
    unfold processHandoff isHandoffResponse
    rw [if_pos (marker_isPrefixOf_append target), drop_marker_append target]
  · intro state response h
    unfold processHandoff isHandoffResponse
    rw [if_neg (by rw [h]; simp)]

/-- C4 witness: a handoff to `Bob` from an empty state, and a no-op on an
ordinary tool response. -/
theorem claim4_process_handoff_witness :
    processHandoff ⟨[], []⟩ (handoffMarker ++ strL "Bob") =
      (⟨[transferMessage (strL "Bob")], strL "Bob"⟩, true) ∧
    (transferMessage (strL "Bob")).Role = strL "tool" ∧
    strL "Bob" <:+ (transferMessage (strL "Bob")).Content ∧
    processHandoff ⟨[], []⟩ (strL "ordinary tool output") = (⟨[], []⟩, false) :=
  ⟨(claim4_process_handoff.1 ⟨[], []⟩ (strL "Bob")).1,
   (claim4_process_handoff.1 ⟨[], []⟩ (strL "Bob")).2.1,
   (claim4_process_handoff.1 ⟨[], []⟩ (strL "Bob")).2.2,
   claim4_process_handoff.2 ⟨[], []⟩ (strL "ordinary tool output") (by decide)⟩

/-- C7: when the runnable's `Invoke` returns an error, the node functions
of both `CreateSwarm` and `CreateStreamingSwarm` return that same error
together with the input state unchanged. -/
theorem claim7_node_error_propagation :
    ∀ (name : GoStr) (f : SwarmState → AnyVal × Option GoStr)
      (dests : List GoStr) (state : SwarmState) (result : AnyVal) (err : GoStr),
      f state = (result, some err) →
      nodeFunc ⟨name, .invoker f, dests⟩ state = (state, some err) ∧
      streamingNodeFunc ⟨name, .invoker f, dests⟩ state = (state, some err) := by
  intro name f dests state result err h
  cases result <;> exact ⟨by simp [nodeFunc, h], by simp [streamingNodeFunc, h]⟩

/-- C7 witness: a runnable that fails with error `boom` propagates it
verbatim with the input state unchanged. -/
theorem claim7_node_error_propagation_witness :
    nodeFunc ⟨strL "Alice", .invoker (fun _ => (.other, some (strL "boom"))), []⟩
      ⟨[], []⟩ = (⟨[], []⟩, some (strL "boom")) ∧
    streamingNodeFunc
      ⟨strL "Alice", .invoker (fun _ => (.other, some (strL "boom"))), []⟩
      ⟨[], []⟩ = (⟨[], []⟩, some (strL "boom")) :=
  claim7_node_error_propagation (strL "Alice")
    (fun _ => (.other, some (strL "boom"))) [] ⟨[], []⟩ .other (strL "boom") rfl

/-- C10: a runnable that does not implement the `Invoke` interface, or
whose `Invoke` returns a non-`SwarmState` value with a nil error, makes
the node functions of both builders return the input state unchanged with
a nil error — the mismatch is silent. -/
theorem claim10_node_mismatch_silent :
    (∀ (name : GoStr) (dests : List GoStr) (state : SwarmState),
        nodeFunc ⟨name, .notInvoker, dests⟩ state = (state, none) ∧
        streamingNodeFunc ⟨name, .notInvoker, dests⟩ state = (state, none)) ∧
    (∀ (name : GoStr) (f : SwarmState → AnyVal × Option GoStr)
        (dests : List GoStr) (state : SwarmState),
        f state = (.other, none) →
        nodeFunc ⟨name, .invoker f, dests⟩ state = (state, none) ∧
        streamingNodeFunc ⟨name, .invoker f, dests⟩ state = (state, none)) := by
  constructor
  · intro name dests state
    exact ⟨rfl, rfl⟩
  · intro name f dests state h
    exact ⟨by simp [nodeFunc, h], by simp [streamingNodeFunc, h]⟩

/-- C10 witness: a non-invoker runnable and an invoker returning a
non-`SwarmState` value are both silent no-ops. -/
theorem claim10_node_mismatch_silent_witness :
    (nodeFunc ⟨strL "Alice", .notInvoker, []⟩ ⟨[], []⟩ = (⟨[], []⟩, none) ∧
      streamingNodeFunc ⟨strL "Alice", .notInvoker, []⟩ ⟨[], []⟩ =
        (⟨[], []⟩, none)) ∧
    (nodeFunc ⟨strL "Alice", .invoker (fun _ => (.other, none)), []⟩ ⟨[], []⟩ =
        (⟨[], []⟩, none) ∧
      streamingNodeFunc ⟨strL "Alice", .invoker (fun _ => (.other, none)), []⟩
        ⟨[], []⟩ = (⟨[], []⟩, none)) :=
  ⟨claim10_node_mismatch_silent.1 (strL "Alice") [] ⟨[], []⟩,
   claim10_node_mismatch_silent.2 (strL "Alice") (fun _ => (.other, none)) []
     ⟨[], []⟩ rfl⟩

/-- C9: `normalizeAgentName` is idempotent, and maps the four concrete
inputs of the spec to their expected normal forms. -/
theorem claim9_normalize_idempotent :
    (∀ l : GoStr, normalizeAgentName (normalizeAgentName l) = normalizeAgentName l) ∧
    normalizeAgentName (strL "SimpleAgent") = strL "simpleagent" ∧
    normalizeAgentName (strL "Agent With Spaces") = strL "agent_with_spaces" ∧
    normalizeAgentName (strL "  Trim Me  ") = strL "trim_me" ∧
    normalizeAgentName (strL "Multiple   Spaces") = strL "multiple_spaces" :=
  ⟨normalizeAgentName_idem, by decide, by decide, by decide, by decide⟩

/-- C8: `CreateHandoffTool` defaults an empty config name to
`transfer_to_<normalized target>` and an empty config description to
`Ask agent '<target>' for help` with the un-normalized target name
(`quoteCh` is the apostrophe), and uses caller-supplied non-empty values
verbatim; concretely for target `Bob` the defaults are `transfer_to_bob`
and `Ask agent 'Bob' for help`. -/
theorem claim8_handoff_tool_defaults :
    (∀ config : HandoffToolConfig, config.Name = [] →
        (CreateHandoffTool config).Name =
          strL "transfer_to_" ++ normalizeAgentName config.AgentName) ∧
    (∀ config : HandoffToolConfig, config.Name ≠ [] →
        (CreateHandoffTool config).Name = config.Name) ∧
    (∀ config : HandoffToolConfig, config.Description = [] →
        (CreateHandoffTool config).Description =
          strL "Ask agent " ++ [quoteCh] ++ config.AgentName ++ [quoteCh] ++
            strL " for help") ∧
    (∀ config : HandoffToolConfig, config.Description ≠ [] →
        (CreateHandoffTool config).Description = config.Description) ∧
    (CreateHandoffTool ⟨strL "Bob", [], []⟩).Name = strL "transfer_to_bob" ∧
    (CreateHandoffTool ⟨strL "Bob", [], []⟩).Description =
      strL "Ask agent " ++ [quoteCh] ++ strL "Bob" ++ [quoteCh] ++ strL " for help" := by
  refine ⟨?_, ?_, ?_, ?_, by decide, by decide⟩
  · intro config h
    simp [CreateHandoffTool, HandoffTool.Name, h]
  · intro config h
    simp [CreateHandoffTool, HandoffTool.Name, h]
  · intro config h
    simp [CreateHandoffTool, HandoffTool.Description, h]
  · intro config h
    simp [CreateHandoffTool, HandoffTool.Description, h]

/-- C8 witness: defaulted name and description for target `Bob`, and
verbatim caller-supplied name and description. -/
theorem claim8_handoff_tool_defaults_witness :
    (CreateHandoffTool ⟨strL "Bob", [], strL "d"⟩).Name =
      strL "transfer_to_" ++ normalizeAgentName (strL "Bob") ∧
    (CreateHandoffTool ⟨strL "Bob", strL "my_tool", []⟩).Name = strL "my_tool" ∧
    (CreateHandoffTool ⟨strL "Bob", strL "my_tool", []⟩).Description =
      strL "Ask agent " ++ [quoteCh] ++ strL "Bob" ++ [quoteCh] ++ strL " for help" ∧
    (CreateHandoffTool ⟨strL "Bob", [], strL "d"⟩).Description = strL "d" :=
  ⟨claim8_handoff_tool_defaults.1 ⟨strL "Bob", [], strL "d"⟩ rfl,
   claim8_handoff_tool_defaults.2.1 ⟨strL "Bob", strL "my_tool", []⟩ (by decide),
   claim8_handoff_tool_defaults.2.2.1 ⟨strL "Bob", strL "my_tool", []⟩ rfl,
   claim8_handoff_tool_defaults.2.2.2.1 ⟨strL "Bob", [], strL "d"⟩ (by decide)⟩

/-- C5 counterexample: applying a handoff does NOT enforce that the
target names a registered agent.  In a swarm whose only registered agent
is `Alice`, `processHandoff` on the marker for `Bob` yields a state whose
(non-empty) `ActiveAgent` is `Bob`, which is not in the registered list. -/
theorem claim5_counterexample :
    (processHandoff ⟨[], strL "Alice"⟩ (strL "__HANDOFF__Bob")).1.ActiveAgent =
      strL "Bob" ∧
    strL "Bob" ≠ ([] : GoStr) ∧
    strL "Bob" ∉ [strL "Alice"] := by decide

/-- C5 amended: handoff application performs no registration check at
all: both `processHandoff` and `CreateHandoffCommand` install the
marker's target as the active agent even when it is not the name of any
registered agent. -/
theorem claim5_amended_no_registration_check :
    (∀ (registered : List GoStr) (state : SwarmState) (target : GoStr),
        target ∉ registered →
        (processHandoff state (handoffMarker ++ target)).1.ActiveAgent = target) ∧
    (∀ (registered : List GoStr) (target toolCallID : GoStr),
        target ∉ registered →
        (CreateHandoffCommand target toolCallID).UpdateActiveAgent = target ∧
        (CreateHandoffCommand target toolCallID).Goto = target) := by
  constructor
  · intro registered state target _
    unfold processHandoff isHandoffResponse
    rw [if_pos (marker_isPrefixOf_append target)]
    exact drop_marker_append target
  · intro registered target toolCallID _
    exact ⟨rfl, rfl⟩

/-- C5 witness: handoff to unregistered `Bob` still becomes the active
agent; the handoff command also targets it. -/
theorem claim5_amended_witness :
    (strL "Bob" ∉ [strL "Alice"] ∧
      (processHandoff ⟨[], strL "Alice"⟩
        (handoffMarker ++ strL "Bob")).1.ActiveAgent = strL "Bob") ∧
    (CreateHandoffCommand (strL "Bob") []).UpdateActiveAgent = strL "Bob" ∧
    (CreateHandoffCommand (strL "Bob") []).Goto = strL "Bob" :=
  ⟨⟨by decide, claim5_amended_no_registration_check.1 [strL "Alice"]
      ⟨[], strL "Alice"⟩ (strL "Bob") (by decide)⟩,
   claim5_amended_no_registration_check.2 [strL "Alice"] (strL "Bob") []
     (by decide)⟩

/-- C3: `CreateSwarm` fails on an empty agent list; fails when the
default active agent matches no agent's name; and succeeds (returns a
graph with a nil error) whenever the agent list is non-empty and some
agent's name equals the default active agent. -/
theorem claim3_create_swarm_validation :
    (∀ config : SwarmConfig, config.Agents = [] →
        CreateSwarm config = .error .agentsListEmpty) ∧
    (∀ config : SwarmConfig,
        (∀ agent ∈ config.Agents, agent.Name ≠ config.DefaultActiveAgent) →
        ∃ e, CreateSwarm config = .error e) ∧
    (∀ config : SwarmConfig, config.Agents ≠ [] →
        (∃ agent ∈ config.Agents, agent.Name = config.DefaultActiveAgent) →
        ∃ g, CreateSwarm config = .ok g) := by
  refine ⟨?_, ?_, ?_⟩
  · intro config h
    unfold CreateSwarm
    rw [if_pos (by rw [h]; rfl)]
  · intro config h
    by_cases hlen : config.Agents.length = 0
    · exact ⟨.agentsListEmpty, by unfold CreateSwarm; rw [if_pos hlen]⟩
    · have hany : (config.Agents.map (fun agent => agent.Name)).any
          (fun name => name == config.DefaultActiveAgent) = false := by
        rw [List.any_eq_false]
        intro name hname
        obtain ⟨agent, hagent, rfl⟩ := List.mem_map.mp hname
        simpa using h agent hagent
      refine ⟨.defaultNotFoundAgentNames config.DefaultActiveAgent
        (config.Agents.map (fun agent => agent.Name)), ?_⟩
      unfold CreateSwarm
      rw [if_neg hlen]
      simp only [hany]
      rfl
  · intro config hne hex
    have hany : (config.Agents.map (fun agent => agent.Name)).any
        (fun name => name == config.DefaultActiveAgent) = true := by
      rw [List.any_eq_true]
      obtain ⟨agent, hagent, heq⟩ := hex
      exact ⟨agent.Name, List.mem_map.mpr ⟨agent, hagent, rfl⟩, by simp [heq]⟩
    have hlen : ¬ config.Agents.length = 0 := by
      simpa [List.length_eq_zero] using hne
    cases hS : CreateSwarm config with
    | ok g => exact ⟨g, rfl⟩
    | error e =>
      exfalso
      unfold CreateSwarm addActiveAgentRouter at hS
      rw [if_neg hlen] at hS
      simp only [hany, if_true] at hS
      exact Except.noConfusion hS

/-- C3 witness: an empty agent list fails; a default naming no agent
fails; a singleton list with a matching default succeeds. -/
theorem claim3_create_swarm_validation_witness :
    CreateSwarm ⟨[], strL "Alice"⟩ = .error .agentsListEmpty ∧
    (∃ e, CreateSwarm ⟨[⟨strL "Alice", .notInvoker, []⟩], strL "Bob"⟩ =
      .error e) ∧
    (∃ g, CreateSwarm ⟨[⟨strL "Alice", .notInvoker, []⟩], strL "Alice"⟩ =
      .ok g) :=
  ⟨claim3_create_swarm_validation.1 ⟨[], strL "Alice"⟩ rfl,
   claim3_create_swarm_validation.2.1 ⟨[⟨strL "Alice", .notInvoker, []⟩], strL "Bob"⟩
     (by
       intro agent hagent
       rw [List.mem_singleton.mp hagent]
       decide),
   claim3_create_swarm_validation.2.2 ⟨[⟨strL "Alice", .notInvoker, []⟩], strL "Alice"⟩
     (by simp)
     ⟨⟨strL "Alice", .notInvoker, []⟩, List.mem_singleton.mpr rfl, rfl⟩⟩

/-- C6: in the streaming builder, every agent with a non-empty
destination list gets the conditional transition `streamingCondFunc`,
which returns `state.ActiveAgent` when it is non-empty, differs from the
agent's own name and belongs to that agent's destinations, and returns
the `END` sentinel otherwise; every agent with an empty destination list
gets an unconditional edge to `END`. -/
theorem claim6_streaming_conditional_edges :
    (∀ (config : SwarmConfig) (g : StreamingStateGraph),
        CreateStreamingSwarm config = .ok g →
        ∀ agent ∈ config.Agents,
          (agent.Destinations ≠ [] →
            (agent.Name, streamingCondFunc agent) ∈ g.condEdges) ∧
          (agent.Destinations = [] → (agent.Name, END) ∈ g.edges)) ∧
    (∀ (agent : Agent) (state : SwarmState),
        (state.ActiveAgent ≠ [] ∧ state.ActiveAgent ≠ agent.Name ∧
            state.ActiveAgent ∈ agent.Destinations →
          streamingCondFunc agent state = state.ActiveAgent) ∧
        (¬(state.ActiveAgent ≠ [] ∧ state.ActiveAgent ≠ agent.Name ∧
            state.ActiveAgent ∈ agent.Destinations) →
          streamingCondFunc agent state = END)) := by
  constructor
  · intro config g hok agent hagent
    have hlen : ¬ config.Agents.length = 0 := by
      intro h0
      rw [List.length_eq_zero] at h0
      rw [h0] at hagent
      exact absurd hagent (List.not_mem_nil agent)
    unfold CreateStreamingSwarm at hok
    rw [if_neg hlen] at hok
    by_cases hany : ((config.Agents.map (fun agent => agent.Name)).any
        (fun name => name == config.DefaultActiveAgent)) = true
    · rw [if_pos hany] at hok
      simp only [Except.ok.injEq] at hok
      subst hok
      constructor
      · intro hne
        refine List.mem_filterMap.mpr ⟨agent, hagent, ?_⟩
        rw [if_pos (by simpa [List.length_pos] using hne)]
      · intro hnil
        refine List.mem_filterMap.mpr ⟨agent, hagent, ?_⟩
        rw [if_neg (by simp [hnil])]
    · rw [if_neg hany] at hok
      exact absurd hok (by simp)
  · intro agent state
    constructor
    · rintro ⟨h1, h2, h3⟩
      unfold streamingCondFunc
      rw [if_pos ⟨h1, h2⟩, if_pos (List.any_eq_true.mpr
        ⟨state.ActiveAgent, h3, by simp⟩)]
    · intro hn
      unfold streamingCondFunc
      by_cases h12 : state.ActiveAgent ≠ [] ∧ state.ActiveAgent ≠ agent.Name
      · rw [if_pos h12, if_neg]
        intro hany
        obtain ⟨dest, hdest, hbeq⟩ := List.any_eq_true.mp hany
        rw [beq_iff_eq] at hbeq
        subst hbeq
        exact hn ⟨h12.1, h12.2, hdest⟩
      · rw [if_neg h12]

/-- C6 witness: a one-agent streaming swarm whose agent `Alice` may hand
off to `Bob` carries the conditional edge for `Alice`; a one-agent swarm
whose agent `Carol` has no destinations carries the plain edge to `END`;
`streamingCondFunc` routes to an allowed destination and to `END` when
the active agent is the node's own name. -/
theorem claim6_streaming_conditional_edges_witness :
    (strL "Alice", streamingCondFunc ⟨strL "Alice", .notInvoker, [strL "Bob"]⟩) ∈
      (StreamingStateGraph.mk (strL "Alice")
        [(strL "Alice",
          streamingNodeFunc ⟨strL "Alice", .notInvoker, [strL "Bob"]⟩)]
        [(strL "Alice",
          streamingCondFunc ⟨strL "Alice", .notInvoker, [strL "Bob"]⟩)]
        []).condEdges ∧
    (strL "Carol", END) ∈
      (StreamingStateGraph.mk (strL "Carol")
        [(strL "Carol", streamingNodeFunc ⟨strL "Carol", .notInvoker, []⟩)]
        []
        [(strL "Carol", END)]).edges ∧
    streamingCondFunc ⟨strL "Alice", .notInvoker, [strL "Bob"]⟩ ⟨[], strL "Bob"⟩ =
      strL "Bob" ∧
    streamingCondFunc ⟨strL "Alice", .notInvoker, [strL "Bob"]⟩ ⟨[], strL "Alice"⟩ =
      END :=
  ⟨(claim6_streaming_conditional_edges.1
      ⟨[⟨strL "Alice", .notInvoker, [strL "Bob"]⟩], strL "Alice"⟩ _ rfl
      ⟨strL "Alice", .notInvoker, [strL "Bob"]⟩ (List.mem_singleton.mpr rfl)).1
    (by decide),
   (claim6_streaming_conditional_edges.1
      ⟨[⟨strL "Carol", .notInvoker, []⟩], strL "Carol"⟩ _ rfl
      ⟨strL "Carol", .notInvoker, []⟩ (List.mem_singleton.mpr rfl)).2 rfl,
   (claim6_streaming_conditional_edges.2
      ⟨strL "Alice", .notInvoker, [strL "Bob"]⟩ ⟨[], strL "Bob"⟩).1
    ⟨by decide, by decide, by decide⟩,
   (claim6_streaming_conditional_edges.2
      ⟨strL "Alice", .notInvoker, [strL "Bob"]⟩ ⟨[], strL "Alice"⟩).2
    (by
      rintro ⟨h1, h2, h3⟩
      exact h2 rfl)⟩
